import Mathlib

/-!
Verification development for a TTS (text-to-speech) process supervisor.

This file shallowly embeds the two components of
`src/tts_controller/models/manager.py`:

* `TTSServer` — one spawned backend process: start (health polling and
  capability discovery), stop, and the synthesis HTTP call with retries;
* `TTSModelManager` — the catalog of known models, the single-active-model
  registry, load/unload and synthesis routing.

All outward I/O (HTTP responses, process spawn/kill results) is modelled by
explicit environment values handed to each operation; the functions
themselves mirror the Python control flow line by line.  Bytes payloads are
modelled as `String`.
-/

/-- Outcome of one health-poll `GET /` during startup
(`manager.py` lines 81-94): either a response with a status code, or a
`requests.exceptions.RequestException`. -/
inductive PollOutcome where
  | ok (status : Nat)
  | exc
deriving DecidableEq, Repr

/-- Outcome of the capability-discovery fetch in `_fetch_model_info`
(`manager.py` lines 26-52).  `ok status spk lang` is a response: `spk`
(resp. `lang`) is `some l` when the `id="speaker_id"` (resp.
`id="language_id"`) `<select>` block was found, with `l` the list of scraped
`value="..."` attributes (the regex `[^"]+` only ever yields non-empty
strings); `none` when the block is absent.  `exc` is a raised exception. -/
inductive FetchOutcome where
  | ok (status : Nat) (spk : Option (List String)) (lang : Option (List String))
  | exc
deriving DecidableEq, Repr

/-- Outcome of one `GET /api/tts` attempt inside `TTSServer.synthesize`
(`manager.py` lines 165-195): a response with status and body, a request
timeout, a connection error, or any other exception. -/
inductive SynthOutcome where
  | ok (status : Nat) (body : String)
  | timeout
  | connError
  | otherExc
deriving DecidableEq, Repr

/-- Process-lifecycle events recorded by the embedding so that theorems can
speak about which backend processes were stopped and started, and with what
result.  Pure bookkeeping: it does not influence any return value. -/
inductive Event where
  | stopCalled (model_name : String) (ok : Bool)
  | startCalled (model_name : String) (port : Nat) (ok : Bool)
deriving DecidableEq, Repr

/-- The `ValueError`s raised by `TTSModelManager` methods, distinguished by
their message (`manager.py` lines 241, 277, 303, 306, 310). -/
inductive TTSError where
  | unknownModel (id : String)
  | noActiveModel
  | modelNotLoaded (id : String)
deriving DecidableEq, Repr

/-- The query parameters of the outgoing `GET /api/tts` request built at
`manager.py` lines 151-158. -/
structure SynthParams where
  text : String
  style_wav : String
  speaker_id : Option String
  language_id : Option String
deriving DecidableEq, Repr

/-- `max_attempts = 120` at `manager.py` line 79. -/
def startMaxAttempts : Nat := 120

/-- The `await asyncio.sleep(1)` between health polls, line 93 (seconds). -/
def pollInterval : Nat := 1

/-- `max_retries = 3` at `manager.py` line 161. -/
def maxRetries : Nat := 3

/-- `retry_delay = 1` at `manager.py` line 162 (seconds). -/
def retryDelay : Nat := 1

/-- `timeout = 30` at `manager.py` line 163 (seconds per attempt). -/
def synthTimeout : Nat := 30

/-- State of one `TTSServer` instance (`manager.py` lines 18-24).
`process` is `some port`-tagged when an OS process is held, `none`
otherwise.  Fresh instances have empty `speakers`/`languages`. -/
structure TTSServer where
  model_name : String
  port : Nat
  process : Option Nat
  speakers : List String
  languages : List String
deriving DecidableEq, Repr

/-- Environment of one `TTSServer.start` run: whether the `Popen` spawn
throws, the result of each health-poll attempt, the capability-discovery
outcome, and — unobserved by the code — the poll index at which the spawned
process died on its own, if any (the Python loop never checks
`self.process.poll()`, so this field is deliberately never read by
`TTSServer.start`; it exists so theorems can state claims about process
exit). -/
structure StartEnv where
  spawnFails : Bool
  poll : Nat → PollOutcome
  fetch : FetchOutcome
  processExitedAt : Option Nat

/-- `_fetch_model_info` (`manager.py` lines 26-52).  On an exception,
returns `False` with the capability lists untouched.  On a response, the
scrape and the `["default"]`/`["en"]` fallback happen only in the
`status_code == 200` branch; any response at all yields `True`. -/
def TTSServer.fetch_model_info (h : TTSServer) (env : FetchOutcome) :
    Bool × TTSServer :=
  match env with
  | .exc => (false, h)
  | .ok status spk lang =>
    if status = 200 then
      let speakers1 := match spk with
        | some l => l
        | none => h.speakers
      let languages1 := match lang with
        | some l => l
        | none => h.languages
      let speakers2 := if speakers1 = [] then ["default"] else speakers1
      let languages2 := if languages1 = [] then ["en"] else languages1
      (true, { h with speakers := speakers2, languages := languages2 })
    else
      (true, h)

/-- The health-poll loop of `TTSServer.start` (`manager.py` lines 80-94),
started at attempt index `start` with `fuel` attempts remaining.  Returns
`some i` when attempt `i` answers with HTTP 200, `none` when the budget is
exhausted.  Non-200 responses and request exceptions both just move on to
the next attempt; nothing inspects whether the spawned process is alive. -/
def startLoop (poll : Nat → PollOutcome) : Nat → Nat → Option Nat
  | _, 0 => none
  | start, fuel + 1 =>
    match poll start with
    | .ok s => if s = 200 then some start else startLoop poll (start + 1) fuel
    | .exc => startLoop poll (start + 1) fuel

/-- Number of poll attempts the loop of `TTSServer.start` actually issues
(same recursion as `startLoop`, counting iterations). -/
def startAttemptsUsed (poll : Nat → PollOutcome) : Nat → Nat → Nat
  | _, 0 => 0
  | start, fuel + 1 =>
    match poll start with
    | .ok s =>
      if s = 200 then 1 else 1 + startAttemptsUsed poll (start + 1) fuel
    | .exc => 1 + startAttemptsUsed poll (start + 1) fuel

/-- `TTSServer.start` (`manager.py` lines 54-104).  If the spawn throws,
returns `False` with no process held.  Otherwise the process is held and the
health loop runs; on a 200 within budget, `_fetch_model_info` runs and
`start` returns `True` whether or not it succeeded (lines 87-91); on budget
exhaustion, returns `False` (the held process reference is not cleared). -/
def TTSServer.start (h : TTSServer) (env : StartEnv) : Bool × TTSServer :=
  if env.spawnFails then (false, h)
  else
    let h1 := { h with process := some h.port }
    match startLoop env.poll 0 startMaxAttempts with
    | some _ =>
      let r := h1.fetch_model_info env.fetch
      (true, r.2)
    | none => (false, h1)

/-- `TTSServer.stop` (`manager.py` lines 106-120).  No-op success when no
process is held.  `stopFails` models the kill/wait sequence raising (the
`except` branch returns `False` and leaves `self.process` set); otherwise
the process reference is cleared and `True` returned. -/
def TTSServer.stop (h : TTSServer) (stopFails : Bool) : Bool × TTSServer :=
  match h.process with
  | none => (true, h)
  | some _ =>
    if stopFails then (false, h) else (true, { h with process := none })

/-- The request parameters built at `manager.py` lines 151-158: always
`text` and an empty `style_wav`; `speaker_id` (resp. `language_id`) only
when the Python truthiness test `if speaker_id and speaker_id in
self.speakers` passes, i.e. the argument is present, non-empty, and a member
of the discovered list. -/
def buildParams (h : TTSServer) (text : String)
    (speaker_id language_id : Option String) : SynthParams :=
  { text := text
    style_wav := ""
    speaker_id :=
      match speaker_id with
      | some s => if s ≠ "" ∧ s ∈ h.speakers then some s else none
      | none => none
    language_id :=
      match language_id with
      | some s => if s ≠ "" ∧ s ∈ h.languages then some s else none
      | none => none }

/-- The retry loop of `TTSServer.synthesize` (`manager.py` lines 165-198),
returning the result together with the number of attempts issued.
200 → return the body; 503 → sleep `retryDelay` and retry; any other
status → immediate `none`; timeout or connection error → sleep and retry;
any other exception → immediate `none`; fuel exhausted → `none`
("Max retries reached"). -/
def synthLoopCount (env : Nat → SynthOutcome) : Nat → Nat → Option String × Nat
  | _, 0 => (none, 0)
  | start, fuel + 1 =>
    match env start with
    | .ok s body =>
      if s = 200 then (some body, 1)
      else if s = 503 then
        let r := synthLoopCount env (start + 1) fuel
        (r.1, r.2 + 1)
      else (none, 1)
    | .timeout =>
      let r := synthLoopCount env (start + 1) fuel
      (r.1, r.2 + 1)
    | .connError =>
      let r := synthLoopCount env (start + 1) fuel
      (r.1, r.2 + 1)
    | .otherExc => (none, 1)

/-- `TTSServer.synthesize` (`manager.py` lines 148-202): builds the request
parameters, then runs the retry loop with `maxRetries` attempts.  Returns
the parameters alongside the result so theorems can inspect the outgoing
request. -/
def TTSServer.synthesize (h : TTSServer) (env : Nat → SynthOutcome)
    (text : String) (speaker_id language_id : Option String) :
    SynthParams × Option String :=
  let params := buildParams h text speaker_id language_id
  (params, (synthLoopCount env 0 maxRetries).1)

/-- One catalog entry of `TTSModelManager.models` (`manager.py` lines
210-235): display name, backend model reference, loaded flag, and the held
`TTSServer` instance (`inst` stands for the Python key `"instance"`, which
is a keyword in Lean). -/
structure ModelEntry where
  name : String
  model_name : String
  loaded : Bool
  inst : Option TTSServer
deriving DecidableEq, Repr

/-- State of a `TTSModelManager` (`manager.py` lines 207-236).  The Python
`Dict[str, dict]` is modelled as an association list in insertion order. -/
structure TTSModelManager where
  venv_path : String
  base_port : Nat
  models : List (String × ModelEntry)
  active_model : Option String
deriving DecidableEq, Repr

/-- Dictionary lookup `self.models[model_id]` / membership test
`model_id in self.models`. -/
def lookupEntry : List (String × ModelEntry) → String → Option ModelEntry
  | [], _ => none
  | p :: rest, id => if p.1 = id then some p.2 else lookupEntry rest id

/-- Pointwise update of the entry (entries) keyed `id`; on a dict-like list
with distinct keys this is exactly `self.models[model_id][...] = ...`. -/
def updateEntry (ms : List (String × ModelEntry)) (id : String)
    (f : ModelEntry → ModelEntry) : List (String × ModelEntry) :=
  ms.map (fun q => if q.1 = id then (q.1, f q.2) else q)

/-- The manager constructed by `TTSModelManager.__init__` (`manager.py`
lines 207-236): the four-entry catalog, `base_port = 5002`, no active
model.  (`os.path.expanduser` is left uninterpreted.) -/
def initialManager : TTSModelManager :=
  { venv_path := "~/test/tts/.venv"
    base_port := 5002
    models :=
      [ ("xtts_v2",
          { name := "XTTS v2"
            model_name := "tts_models/multilingual/multi-dataset/xtts_v2"
            loaded := false
            inst := none })
      , ("greek_vits",
          { name := "greek vits"
            model_name := "tts_models/el/cv/vits"
            loaded := false
            inst := none })
      , ("tacotron2-DDC",
          { name := "tocotran2 DDC"
            model_name := "tts_models/ja/kokoro/tacotron2-DDC"
            loaded := false
            inst := none })
      , ("bark",
          { name := "Bark"
            model_name := "tts_models/multilingual/multi-dataset/bark"
            loaded := false
            inst := none }) ]
    active_model := none }

/-- `TTSModelManager.unload_model` (`manager.py` lines 274-297).  Unknown id
raises `ValueError` (line 277).  Not-loaded entries are a no-op success
(lines 279-280).  Otherwise the instance, if any, is stopped — note the
boolean result of `stop` is discarded by the source (line 285); the
embedding records it in the event trace — the entry is cleared, the active
pointer dropped if it named this id, and `True` returned.  The Python
`except` branch is unreachable because `TTSServer.stop` never raises. -/
def TTSModelManager.unload_model (st : TTSModelManager) (stopFails : Bool)
    (model_id : String) :
    Except TTSError (Bool × TTSModelManager × List Event) :=
  match lookupEntry st.models model_id with
  | none => .error (.unknownModel model_id)
  | some entry =>
    if entry.loaded = false then .ok (true, st, [])
    else
      let evs : List Event :=
        match entry.inst with
        | some srv => [Event.stopCalled srv.model_name (srv.stop stopFails).1]
        | none => []
      let st' : TTSModelManager :=
        { st with
          models := updateEntry st.models model_id
            (fun e => { e with loaded := false, inst := none })
          active_model :=
            if st.active_model = some model_id then none
            else st.active_model }
      .ok (true, st', evs)

/-- The registry state after `unload_model` clears a loaded entry
(`manager.py` lines 287-291): the entry's flag and instance wiped, the
active pointer dropped when it named this id. -/
def clearedState (st : TTSModelManager) (model_id : String) : TTSModelManager :=
  { st with
    models := updateEntry st.models model_id
      (fun e => { e with loaded := false, inst := none })
    active_model :=
      if st.active_model = some model_id then none else st.active_model }

/-- The event trace of one clearing `unload_model`: the stop of the held
instance, if any, with the (discarded) boolean result of `stop`. -/
def stopEvents (e : ModelEntry) (stopFails : Bool) : List Event :=
  match e.inst with
  | some srv => [Event.stopCalled srv.model_name (srv.stop stopFails).1]
  | none => []

/-- The port chosen by `load_model` (`manager.py` line 249):
`base_port + count of currently loaded entries`. -/
def nextPort (st : TTSModelManager) : Nat :=
  st.base_port + (st.models.filter (fun p => p.2.loaded)).length

/-- The fresh `TTSServer` constructed by `load_model` (`manager.py` line
252) for catalog entry `e` in registry state `st`. -/
def freshServer (st : TTSModelManager) (e : ModelEntry) : TTSServer :=
  { model_name := e.model_name
    port := nextPort st
    process := none
    speakers := []
    languages := [] }

/-- Environment of one `load_model` call: the stop outcome for the unload of
the currently active model (if any) and the start environment for the fresh
server. -/
structure LoadEnv where
  stopFails : Bool
  startEnv : StartEnv

/-- `TTSModelManager.load_model` (`manager.py` lines 238-272).  Unknown id
raises `ValueError` (line 241).  If a model is active it is unloaded first
(lines 243-245, outside the `try`, so an error there would propagate).  The
port is `base_port + count of loaded entries` computed after that unload
(line 249).  A fresh `TTSServer` is constructed and started; on success the
entry is marked loaded with the started instance recorded and the id made
active; on failure the state is left as after the unload and `False` is
returned. -/
def TTSModelManager.load_model (st : TTSModelManager) (env : LoadEnv)
    (model_id : String) :
    Except TTSError (Bool × TTSModelManager × List Event) :=
  match lookupEntry st.models model_id with
  | none => .error (.unknownModel model_id)
  | some _ =>
    match (match st.active_model with
           | some a => st.unload_model env.stopFails a
           | none => .ok (true, st, [])) with
    | .error e => .error e
    | .ok (_, st1, evs1) =>
      match lookupEntry st1.models model_id with
      | none => .error (.unknownModel model_id)
      | some entry =>
        let server0 := freshServer st1 entry
        let r := server0.start env.startEnv
        let evs := evs1 ++ [Event.startCalled entry.model_name server0.port r.1]
        if r.1 then
          .ok (true,
            { st1 with
              models := updateEntry st1.models model_id
                (fun e => { e with loaded := true, inst := some r.2 })
              active_model := some model_id },
            evs)
        else
          .ok (false, st1, evs)

/-- `TTSModelManager.synthesize` (`manager.py` lines 299-312).  The Python
`model_id = model_id or self.active_model` falls back to the active model
both when `model_id` is `None` and when it is the empty string (falsy); if
the result is still falsy, `ValueError("No active model")`; an id missing
from the catalog raises `ValueError("Unknown model ...")`; a known but
unloaded entry (or one with no instance) raises
`ValueError("... is not loaded")`; otherwise the call is delegated to the
instance. -/
def TTSModelManager.synthesize (st : TTSModelManager)
    (env : Nat → SynthOutcome) (text : String)
    (model_id speaker_id language_id : Option String) :
    Except TTSError (Option String) :=
  let mid : Option String :=
    match model_id with
    | some s => if s = "" then st.active_model else some s
    | none => st.active_model
  match mid with
  | none => .error .noActiveModel
  | some m =>
    match lookupEntry st.models m with
    | none => .error (.unknownModel m)
    | some entry =>
      if entry.loaded = false then .error (.modelNotLoaded m)
      else
        match entry.inst with
        | none => .error (.modelNotLoaded m)
        | some srv => .ok (srv.synthesize env text speaker_id language_id).2

/-- `TTSModelManager.get_active_model` (`manager.py` lines 314-316). -/
def TTSModelManager.get_active_model (st : TTSModelManager) : Option String :=
  st.active_model

/-- One registry operation, for stating the all-sequences invariant:
a `load_model` or an `unload_model` call with its environment. -/
inductive Op where
  | load (model_id : String) (env : LoadEnv)
  | unload (model_id : String) (stopFails : Bool)

/-- Observable state after one operation: the updated registry when the call
returns (either boolean), the unchanged registry when it raises. -/
def step (st : TTSModelManager) : Op → TTSModelManager
  | .load id env =>
    match st.load_model env id with
    | .ok r => r.2.1
    | .error _ => st
  | .unload id f =>
    match st.unload_model f id with
    | .ok r => r.2.1
    | .error _ => st

/-- The registry reached from the freshly constructed manager by a sequence
of load/unload calls. -/
def run (ops : List Op) : TTSModelManager :=
  ops.foldl step initialManager

/-- The registry state after `load_model` marks an entry loaded
(`manager.py` lines 259-261): flag set, started instance recorded, id made
active. -/
def loadedState (st : TTSModelManager) (model_id : String) (srv : TTSServer) :
    TTSModelManager :=
  { st with
    models := updateEntry st.models model_id
      (fun e => { e with loaded := true, inst := some srv })
    active_model := some model_id }

/-- The catalog keys are pairwise distinct (true of the Python dict and of
`initialManager`, and preserved by every operation). -/
def KeysNodup (st : TTSModelManager) : Prop :=
  (st.models.map Prod.fst).Nodup

/-- The single-active-model invariant: when no model is active, no entry is
loaded; when `a` is active, `a` is a catalog key and an entry is loaded
exactly when its key is `a`. -/
def InvActive (st : TTSModelManager) : Prop :=
  (st.active_model = none → ∀ p ∈ st.models, p.2.loaded = false) ∧
  (∀ a, st.active_model = some a →
    (∃ p, p ∈ st.models ∧ p.1 = a) ∧
    ∀ p ∈ st.models, (p.2.loaded = true ↔ p.1 = a))

/-- Well-formed registry state: distinct catalog keys and the
single-active-model invariant. -/
def WfS (st : TTSModelManager) : Prop := KeysNodup st ∧ InvActive st

/-- Projection of an operation result onto the reached registry state
(defaulting to the fresh registry on an error, which leaves the state
unchanged anyway); used to spell out concrete witness states. -/
def stateOf (r : Except TTSError (Bool × TTSModelManager × List Event)) :
    TTSModelManager :=
  match r with
  | .ok p => p.2.1
  | .error _ => initialManager

/-- Projection of an operation result onto its event trace. -/
def eventsOf (r : Except TTSError (Bool × TTSModelManager × List Event)) :
    List Event :=
  match r with
  | .ok p => p.2.2
  | .error _ => []

/-- A start environment whose backend answers the first health poll with
HTTP 200 and whose capability fetch raises. -/
def okStartEnv : StartEnv :=
  { spawnFails := false
    poll := fun _ => .ok 200
    fetch := .exc
    processExitedAt := none }

/-- A load environment with a healthy backend and successful stops. -/
def okLoadEnv : LoadEnv := { stopFails := false, startEnv := okStartEnv }

/-- A start environment whose spawned process dies immediately (before the
first poll) so that every health poll raises a connection error. -/
def deadStartEnv : StartEnv :=
  { spawnFails := false
    poll := fun _ => .exc
    fetch := .exc
    processExitedAt := some 0 }

/-- A load environment around `deadStartEnv`. -/
def deadLoadEnv : LoadEnv := { stopFails := false, startEnv := deadStartEnv }

/-- Registry with `"xtts_v2"` successfully loaded from the fresh registry. -/
def wSt1 : TTSModelManager :=
  stateOf (initialManager.load_model okLoadEnv "xtts_v2")

/-- Registry after additionally loading `"greek_vits"` successfully. -/
def wSt2 : TTSModelManager := stateOf (wSt1.load_model okLoadEnv "greek_vits")

/-- Event trace of the first witness load. -/
def wEvsA : List Event := eventsOf (initialManager.load_model okLoadEnv "xtts_v2")

/-- Event trace of the second witness load. -/
def wEvsB : List Event := eventsOf (wSt1.load_model okLoadEnv "greek_vits")

/-- Registry after a failed `load_model "bark"` from `wSt1` (backend never
becomes healthy). -/
def cSt3 : TTSModelManager := stateOf (wSt1.load_model deadLoadEnv "bark")

/-- Registry after `unload_model "xtts_v2"` on `wSt1` with a failing
process stop. -/
def cSt9 : TTSModelManager := stateOf (wSt1.unload_model true "xtts_v2")

/-- Event trace of the failed `load_model "bark"` from `wSt1`. -/
def cEvs3 : List Event := eventsOf (wSt1.load_model deadLoadEnv "bark")

/-- Event trace of `unload_model "xtts_v2"` on `wSt1` with a failing stop. -/
def cEvs9 : List Event := eventsOf (wSt1.unload_model true "xtts_v2")

/-- The catalog entry for `"xtts_v2"` inside `wSt1` (loaded, holding a
running server). -/
def c10entry : ModelEntry :=
  { name := "XTTS v2"
    model_name := "tts_models/multilingual/multi-dataset/xtts_v2"
    loaded := true
    inst := some
      { model_name := "tts_models/multilingual/multi-dataset/xtts_v2"
        port := 5002
        process := some 5002
        speakers := []
        languages := [] } }

/-- The server handle held by `c10entry`. -/
def c10srv : TTSServer :=
  { model_name := "tts_models/multilingual/multi-dataset/xtts_v2"
    port := 5002
    process := some 5002
    speakers := []
    languages := [] }

/-- Registry after re-loading the already-active `"xtts_v2"` from `wSt1`. -/
def wSt10 : TTSModelManager :=
  stateOf (wSt1.load_model okLoadEnv "xtts_v2")

/-- Event trace of that re-load. -/
def wEvs10 : List Event := eventsOf (wSt1.load_model okLoadEnv "xtts_v2")

/-- A freshly constructed server handle (as in `TTSServer.__init__`):
no process, empty capability lists. -/
def freshW : TTSServer :=
  { model_name := "tts_models/el/cv/vits"
    port := 5002
    process := none
    speakers := []
    languages := [] }

/-- A server handle with discovered capability sets, for exercising the
request-building rules. -/
def wSrv7 : TTSServer :=
  { model_name := "tts_models/multilingual/multi-dataset/xtts_v2"
    port := 5002
    process := some 5002
    speakers := ["p225", "p226"]
    languages := ["en", "fr"] }

/-- The synthesis backend of the spec scenario: 503 on the first two
attempts, then 200 with body `"RIFF..."`. -/
def scen503 : Nat → SynthOutcome :=
  fun i => if i < 2 then .ok 503 "service unavailable" else .ok 200 "RIFF..."

/-! ### Association-list lemmas -/

theorem lookupEntry_mem : ∀ {ms : List (String × ModelEntry)} {id : String}
    {e : ModelEntry}, lookupEntry ms id = some e → (id, e) ∈ ms := by
  intro ms
  induction ms with
  | nil => intro id e h; simp [lookupEntry] at h
  | cons p rest ih =>
    intro id e h
    rw [lookupEntry] at h
    split at h
    next hp =>
      injection h with h
      subst hp; subst h
      exact List.mem_cons_self p rest
    next hp => exact List.mem_cons_of_mem _ (ih h)

theorem lookupEntry_isSome_of_exists :
    ∀ {ms : List (String × ModelEntry)} {a : String},
    (∃ p, p ∈ ms ∧ p.1 = a) → ∃ e, lookupEntry ms a = some e := by
  intro ms
  induction ms with
  | nil =>
    intro a h
    rcases h with ⟨p, hp, _⟩
    simp at hp
  | cons q rest ih =>
    intro a h
    by_cases hq : q.1 = a
    · exact ⟨q.2, by rw [lookupEntry, if_pos hq]⟩
    · rcases h with ⟨p, hp, hpa⟩
      rcases List.mem_cons.mp hp with rfl | hmem
      · exact absurd hpa hq
      · rcases ih ⟨p, hmem, hpa⟩ with ⟨e, he⟩
        exact ⟨e, by rw [lookupEntry, if_neg hq]; exact he⟩

theorem keys_updateEntry : ∀ (ms : List (String × ModelEntry)) (id : String)
    (f : ModelEntry → ModelEntry),
    (updateEntry ms id f).map Prod.fst = ms.map Prod.fst := by
  intro ms id f
  induction ms with
  | nil => rfl
  | cons q rest ih =>
    show ((if q.1 = id then (q.1, f q.2) else q) :: updateEntry rest id f).map
      Prod.fst = _
    simp only [List.map_cons]
    rw [ih]
    congr 1
    split <;> rfl

theorem mem_updateEntry {ms : List (String × ModelEntry)} {id : String}
    {f : ModelEntry → ModelEntry} {p : String × ModelEntry} :
    p ∈ updateEntry ms id f ↔
      ∃ q, q ∈ ms ∧ p = (if q.1 = id then (q.1, f q.2) else q) := by
  unfold updateEntry
  rw [List.mem_map]
  constructor
  · rintro ⟨q, hq, rfl⟩; exact ⟨q, hq, rfl⟩
  · rintro ⟨q, hq, rfl⟩; exact ⟨q, hq, rfl⟩

theorem lookupEntry_updateEntry_self :
    ∀ {ms : List (String × ModelEntry)} {id : String} {e : ModelEntry}
    {f : ModelEntry → ModelEntry},
    lookupEntry ms id = some e →
    lookupEntry (updateEntry ms id f) id = some (f e) := by
  intro ms
  induction ms with
  | nil => intro id e f h; simp [lookupEntry] at h
  | cons q rest ih =>
    intro id e f h
    rw [lookupEntry] at h
    show lookupEntry ((if q.1 = id then (q.1, f q.2) else q) ::
      updateEntry rest id f) id = some (f e)
    by_cases hq : q.1 = id
    · rw [if_pos hq] at h
      injection h with h
      rw [if_pos hq, lookupEntry, if_pos hq, h]
    · rw [if_neg hq] at h
      rw [if_neg hq, lookupEntry, if_neg hq]
      exact ih h

theorem lookupEntry_updateEntry_ne :
    ∀ {ms : List (String × ModelEntry)} {a id : String}
    {f : ModelEntry → ModelEntry}, a ≠ id →
    lookupEntry (updateEntry ms id f) a = lookupEntry ms a := by
  intro ms
  induction ms with
  | nil => intro a id f _; rfl
  | cons q rest ih =>
    intro a id f hne
    show lookupEntry ((if q.1 = id then (q.1, f q.2) else q) ::
      updateEntry rest id f) a = _
    by_cases hq : q.1 = id
    · rw [if_pos hq, lookupEntry, lookupEntry]
      by_cases hqa : q.1 = a
      · exact absurd (hqa.symm.trans hq) hne
      · rw [if_neg hqa, if_neg hqa]
        exact ih hne
    · rw [if_neg hq, lookupEntry, lookupEntry]
      by_cases hqa : q.1 = a
      · rw [if_pos hqa, if_pos hqa]
      · rw [if_neg hqa, if_neg hqa]
        exact ih hne

/-! ### Health-poll loop lemmas -/

theorem startLoop_none_of : ∀ (fuel start : Nat) (poll : Nat → PollOutcome),
    (∀ i, i < fuel → ∀ s, poll (start + i) = .ok s → s ≠ 200) →
    startLoop poll start fuel = none := by
  intro fuel
  induction fuel with
  | zero => intro start poll _; rfl
  | succ n ih =>
    intro start poll h
    have hrest : ∀ i, i < n → ∀ s, poll (start + 1 + i) = .ok s → s ≠ 200 := by
      intro i hi s hs
      refine h (i + 1) (by omega) s ?_
      rwa [show start + (i + 1) = start + 1 + i by omega]
    cases hp : poll start with
    | ok s =>
      have hs : s ≠ 200 := h 0 (by omega) s (by simpa using hp)
      rw [startLoop, hp]
      show (if s = 200 then some start else startLoop poll (start + 1) n) = none
      rw [if_neg hs]
      exact ih (start + 1) poll hrest
    | exc =>
      rw [startLoop, hp]
      show startLoop poll (start + 1) n = none
      exact ih (start + 1) poll hrest

theorem startAttemptsUsed_full : ∀ (fuel start : Nat) (poll : Nat → PollOutcome),
    (∀ i, i < fuel → ∀ s, poll (start + i) = .ok s → s ≠ 200) →
    startAttemptsUsed poll start fuel = fuel := by
  intro fuel
  induction fuel with
  | zero => intro start poll _; rfl
  | succ n ih =>
    intro start poll h
    have hrest : ∀ i, i < n → ∀ s, poll (start + 1 + i) = .ok s → s ≠ 200 := by
      intro i hi s hs
      refine h (i + 1) (by omega) s ?_
      rwa [show start + (i + 1) = start + 1 + i by omega]
    cases hp : poll start with
    | ok s =>
      have hs : s ≠ 200 := h 0 (by omega) s (by simpa using hp)
      rw [startAttemptsUsed, hp]
      show (if s = 200 then 1 else 1 + startAttemptsUsed poll (start + 1) n) =
        n + 1
      rw [if_neg hs, ih (start + 1) poll hrest]
      omega
    | exc =>
      rw [startAttemptsUsed, hp]
      show 1 + startAttemptsUsed poll (start + 1) n = n + 1
      rw [ih (start + 1) poll hrest]
      omega

theorem startAttemptsUsed_le : ∀ (fuel start : Nat) (poll : Nat → PollOutcome),
    startAttemptsUsed poll start fuel ≤ fuel := by
  intro fuel
  induction fuel with
  | zero => intro start poll; exact Nat.le_refl 0
  | succ n ih =>
    intro start poll
    cases hp : poll start with
    | ok s =>
      rw [startAttemptsUsed, hp]
      show (if s = 200 then 1 else 1 + startAttemptsUsed poll (start + 1) n) ≤
        n + 1
      split
      · omega
      · have := ih (start + 1) poll; omega
    | exc =>
      rw [startAttemptsUsed, hp]
      show 1 + startAttemptsUsed poll (start + 1) n ≤ n + 1
      have := ih (start + 1) poll; omega

theorem startLoop_isSome_of : ∀ (fuel start : Nat) (poll : Nat → PollOutcome),
    (∃ i, i < fuel ∧ poll (start + i) = .ok 200) →
    (startLoop poll start fuel).isSome = true := by
  intro fuel
  induction fuel with
  | zero =>
    intro start poll h
    rcases h with ⟨i, hi, _⟩
    omega
  | succ n ih =>
    intro start poll h
    cases hp : poll start with
    | ok s =>
      by_cases hs : s = 200
      · rw [startLoop, hp]
        show (if s = 200 then some start else
          startLoop poll (start + 1) n).isSome = true
        rw [if_pos hs]
        rfl
      · rw [startLoop, hp]
        show (if s = 200 then some start else
          startLoop poll (start + 1) n).isSome = true
        rw [if_neg hs]
        apply ih (start + 1) poll
        rcases h with ⟨i, hi, hpi⟩
        cases i with
        | zero =>
          rw [Nat.add_zero] at hpi
          rw [hpi] at hp
          injection hp with hp
          exact absurd hp.symm hs
        | succ j =>
          refine ⟨j, by omega, ?_⟩
          rwa [show start + 1 + j = start + (j + 1) by omega]
    | exc =>
      rw [startLoop, hp]
      show (startLoop poll (start + 1) n).isSome = true
      apply ih (start + 1) poll
      rcases h with ⟨i, hi, hpi⟩
      cases i with
      | zero =>
        rw [Nat.add_zero] at hpi
        rw [hpi] at hp
        cases hp
      | succ j =>
        refine ⟨j, by omega, ?_⟩
        rwa [show start + 1 + j = start + (j + 1) by omega]

/-! ### `TTSServer.start` and synthesis-loop lemmas -/

theorem start_true_of (h : TTSServer) (env : StartEnv)
    (hsp : env.spawnFails = false)
    (hp : ∃ i, i < startMaxAttempts ∧ env.poll i = .ok 200) :
    h.start env =
      (true, (TTSServer.fetch_model_info { h with process := some h.port }
        env.fetch).2) := by
  unfold TTSServer.start
  rw [hsp]
  have hsome := startLoop_isSome_of startMaxAttempts 0 env.poll (by simpa using hp)
  cases hl : startLoop env.poll 0 startMaxAttempts with
  | none => rw [hl] at hsome; cases hsome
  | some i => simp [hl]

theorem start_false_of (h : TTSServer) (env : StartEnv)
    (hp : ∀ i, i < startMaxAttempts → ∀ s, env.poll i = .ok s → s ≠ 200) :
    (h.start env).1 = false := by
  unfold TTSServer.start
  cases hsp : env.spawnFails with
  | true => rw [if_pos rfl]
  | false =>
    rw [if_neg (by simp)]
    rw [startLoop_none_of startMaxAttempts 0 env.poll
      (by intro i hi s hs; exact hp i hi s (by simpa using hs))]

theorem synthLoopCount_le : ∀ (fuel start : Nat) (env : Nat → SynthOutcome),
    (synthLoopCount env start fuel).2 ≤ fuel := by
  intro fuel
  induction fuel with
  | zero => intro start env; exact Nat.le_refl 0
  | succ n ih =>
    intro start env
    cases he : env start with
    | ok s body =>
      rw [synthLoopCount, he]
      show (if s = 200 then ((some body : Option String), 1)
        else if s = 503 then
          ((synthLoopCount env (start + 1) n).1,
            (synthLoopCount env (start + 1) n).2 + 1)
        else (none, 1)).2 ≤ n + 1
      split
      · omega
      · split
        · have := ih (start + 1) env; simp only []; omega
        · omega
    | timeout =>
      rw [synthLoopCount, he]
      show (synthLoopCount env (start + 1) n).2 + 1 ≤ n + 1
      have := ih (start + 1) env; omega
    | connError =>
      rw [synthLoopCount, he]
      show (synthLoopCount env (start + 1) n).2 + 1 ≤ n + 1
      have := ih (start + 1) env; omega
    | otherExc =>
      rw [synthLoopCount, he]
      show (1 : Nat) ≤ n + 1
      omega

/-! ### Shapes of `unload_model` and `load_model` results -/

theorem unload_unknown (st : TTSModelManager) (f : Bool) (id : String)
    (h : lookupEntry st.models id = none) :
    st.unload_model f id = .error (.unknownModel id) := by
  unfold TTSModelManager.unload_model
  rw [h]

theorem unload_noop (st : TTSModelManager) (f : Bool) (id : String)
    (e : ModelEntry) (he : lookupEntry st.models id = some e)
    (hl : e.loaded = false) :
    st.unload_model f id = .ok (true, st, []) := by
  unfold TTSModelManager.unload_model
  rw [he]
  simp [hl]

theorem unload_shape (st : TTSModelManager) (f : Bool) (id : String)
    (e : ModelEntry) (he : lookupEntry st.models id = some e)
    (hl : e.loaded = true) :
    st.unload_model f id = .ok (true, clearedState st id, stopEvents e f) := by
  unfold TTSModelManager.unload_model clearedState stopEvents
  rw [he]
  simp [hl]

theorem unload_ok_inv (st : TTSModelManager) (f : Bool) (id : String)
    (r : Bool × TTSModelManager × List Event)
    (h : st.unload_model f id = .ok r) :
    r.1 = true ∧ ∃ e, lookupEntry st.models id = some e := by
  cases he : lookupEntry st.models id with
  | none =>
    rw [unload_unknown st f id he] at h
    exact Except.noConfusion h
  | some e =>
    refine ⟨?_, e, rfl⟩
    cases hl : e.loaded with
    | false =>
      rw [unload_noop st f id e he hl] at h
      injection h with h
      rw [← h]
    | true =>
      rw [unload_shape st f id e he hl] at h
      injection h with h
      rw [← h]

theorem load_unknown (st : TTSModelManager) (env : LoadEnv) (id : String)
    (h0 : lookupEntry st.models id = none) :
    st.load_model env id = .error (.unknownModel id) := by
  unfold TTSModelManager.load_model
  rw [h0]

theorem load_shape_noactive_ok (st : TTSModelManager) (env : LoadEnv)
    (id : String) (e : ModelEntry) (srv : TTSServer)
    (h0 : lookupEntry st.models id = some e)
    (ha : st.active_model = none)
    (hstart : (freshServer st e).start env.startEnv = (true, srv)) :
    st.load_model env id = .ok (true, loadedState st id srv,
      [Event.startCalled e.model_name (freshServer st e).port true]) := by
  unfold TTSModelManager.load_model loadedState
  rw [h0, ha]
  simp [h0, hstart]

theorem load_shape_noactive_fail (st : TTSModelManager) (env : LoadEnv)
    (id : String) (e : ModelEntry)
    (h0 : lookupEntry st.models id = some e)
    (ha : st.active_model = none)
    (hstart : ((freshServer st e).start env.startEnv).1 = false) :
    st.load_model env id = .ok (false, st,
      [Event.startCalled e.model_name (freshServer st e).port false]) := by
  unfold TTSModelManager.load_model
  rw [h0, ha]
  simp [h0, hstart]

theorem load_shape_active_ok (st : TTSModelManager) (env : LoadEnv)
    (id a : String) (e ea e1 : ModelEntry) (srv : TTSServer)
    (h0 : lookupEntry st.models id = some e)
    (ha : st.active_model = some a)
    (hea : lookupEntry st.models a = some ea)
    (hl : ea.loaded = true)
    (h1 : lookupEntry (clearedState st a).models id = some e1)
    (hstart : (freshServer (clearedState st a) e1).start env.startEnv =
      (true, srv)) :
    st.load_model env id = .ok (true, loadedState (clearedState st a) id srv,
      stopEvents ea env.stopFails ++
        [Event.startCalled e1.model_name
          (freshServer (clearedState st a) e1).port true]) := by
  unfold TTSModelManager.load_model loadedState
  rw [h0, ha]
  simp [unload_shape st env.stopFails a ea hea hl, h1, hstart]

theorem load_shape_active_fail (st : TTSModelManager) (env : LoadEnv)
    (id a : String) (e ea e1 : ModelEntry)
    (h0 : lookupEntry st.models id = some e)
    (ha : st.active_model = some a)
    (hea : lookupEntry st.models a = some ea)
    (hl : ea.loaded = true)
    (h1 : lookupEntry (clearedState st a).models id = some e1)
    (hstart : ((freshServer (clearedState st a) e1).start env.startEnv).1 =
      false) :
    st.load_model env id = .ok (false, clearedState st a,
      stopEvents ea env.stopFails ++
        [Event.startCalled e1.model_name
          (freshServer (clearedState st a) e1).port false]) := by
  unfold TTSModelManager.load_model
  rw [h0, ha]
  simp [unload_shape st env.stopFails a ea hea hl, h1, hstart]

/-! ### Preservation of the single-active-model invariant -/

theorem cleared_all_unloaded (ms : List (String × ModelEntry)) (id : String)
    (hiff : ∀ p ∈ ms, (p.2.loaded = true ↔ p.1 = id)) :
    ∀ p ∈ updateEntry ms id (fun e => { e with loaded := false, inst := none }),
      p.2.loaded = false := by
  intro p hp
  rcases mem_updateEntry.mp hp with ⟨q, hq, rfl⟩
  by_cases hqid : q.1 = id
  · simp [hqid]
  · simp only [if_neg hqid]
    cases hqe : q.2.loaded with
    | false => rfl
    | true => exact absurd ((hiff q hq).mp hqe) hqid

theorem active_entry (st : TTSModelManager) (a : String) (hw : WfS st)
    (ha : st.active_model = some a) :
    ∃ ea, lookupEntry st.models a = some ea ∧ ea.loaded = true := by
  obtain ⟨hex, hiff⟩ := hw.2.2 a ha
  obtain ⟨e, he⟩ := lookupEntry_isSome_of_exists hex
  exact ⟨e, he, (hiff (a, e) (lookupEntry_mem he)).mpr rfl⟩

theorem invActive_clearedState (st : TTSModelManager) (a : String)
    (hw : WfS st) (ha : st.active_model = some a) :
    (clearedState st a).active_model = none ∧
    (∀ p ∈ (clearedState st a).models, p.2.loaded = false) ∧
    KeysNodup (clearedState st a) := by
  obtain ⟨hnd, hinv⟩ := hw
  obtain ⟨hex, hiff⟩ := hinv.2 a ha
  refine ⟨?_, ?_, ?_⟩
  · show (if st.active_model = some a then none else st.active_model) = none
    rw [if_pos ha]
  · exact cleared_all_unloaded st.models a hiff
  · show ((updateEntry st.models a
      (fun e => { e with loaded := false, inst := none })).map Prod.fst).Nodup
    rw [keys_updateEntry]
    exact hnd

theorem invActive_loadedState (st : TTSModelManager) (id : String)
    (e : ModelEntry) (srv : TTSServer)
    (hall : ∀ p ∈ st.models, p.2.loaded = false)
    (he : lookupEntry st.models id = some e) :
    InvActive (loadedState st id srv) := by
  constructor
  · intro hno
    exact Option.noConfusion hno
  · intro a hsome
    have hia : id = a := by
      have h' : some id = some a := hsome
      injection h'
    constructor
    · refine ⟨(id, { e with loaded := true, inst := some srv }), ?_, hia⟩
      show (id, _) ∈ updateEntry st.models id
        (fun x => { x with loaded := true, inst := some srv })
      exact mem_updateEntry.mpr ⟨(id, e), lookupEntry_mem he, by simp⟩
    · intro p hp
      have hp' : p ∈ updateEntry st.models id
          (fun x => { x with loaded := true, inst := some srv }) := hp
      rcases mem_updateEntry.mp hp' with ⟨q, hq, rfl⟩
      by_cases hqid : q.1 = id
      · simp [hqid, ← hia]
      · simp only [if_neg hqid]
        refine iff_of_false ?_ ?_
        · rw [hall q hq]; simp
        · rw [← hia]; exact hqid

theorem wfS_unload (st : TTSModelManager) (f : Bool) (id : String)
    (hw : WfS st) (r : Bool × TTSModelManager × List Event)
    (h : st.unload_model f id = .ok r) : WfS r.2.1 := by
  cases he : lookupEntry st.models id with
  | none =>
    rw [unload_unknown st f id he] at h
    exact Except.noConfusion h
  | some e =>
    cases hl : e.loaded with
    | false =>
      rw [unload_noop st f id e he hl] at h
      injection h with h
      rw [← h]
      exact hw
    | true =>
      rw [unload_shape st f id e he hl] at h
      injection h with h
      rw [← h]
      have ha : st.active_model = some id := by
        cases hact : st.active_model with
        | none =>
          have hfalse := hw.2.1 hact (id, e) (lookupEntry_mem he)
          rw [hl] at hfalse
          exact absurd hfalse (by simp)
        | some a =>
          have hiff := (hw.2.2 a hact).2 (id, e) (lookupEntry_mem he)
          have hia : id = a := hiff.mp hl
          rw [hia]
      have hc := invActive_clearedState st id hw ha
      refine ⟨hc.2.2, fun _ => hc.2.1, fun a hcontra => ?_⟩
      rw [hc.1] at hcontra
      exact Option.noConfusion hcontra

theorem wfS_load (st : TTSModelManager) (env : LoadEnv) (id : String)
    (hw : WfS st) (r : Bool × TTSModelManager × List Event)
    (h : st.load_model env id = .ok r) : WfS r.2.1 := by
  cases h0 : lookupEntry st.models id with
  | none =>
    rw [load_unknown st env id h0] at h
    exact Except.noConfusion h
  | some e =>
    cases ha : st.active_model with
    | none =>
      have hall : ∀ p ∈ st.models, p.2.loaded = false := hw.2.1 ha
      cases hstart : (freshServer st e).start env.startEnv with
      | mk ok srv =>
        cases ok with
        | true =>
          rw [load_shape_noactive_ok st env id e srv h0 ha hstart] at h
          injection h with h
          rw [← h]
          refine ⟨?_, invActive_loadedState st id e srv hall h0⟩
          show ((updateEntry st.models id
            (fun x => { x with loaded := true, inst := some srv })).map
              Prod.fst).Nodup
          rw [keys_updateEntry]
          exact hw.1
        | false =>
          rw [load_shape_noactive_fail st env id e h0 ha (by rw [hstart])] at h
          injection h with h
          rw [← h]
          exact hw
    | some a =>
      obtain ⟨ea, hea, hl⟩ := active_entry st a hw ha
      have hc := invActive_clearedState st a hw ha
      have h1ex : ∃ e1, lookupEntry (clearedState st a).models id = some e1 := by
        by_cases hia : id = a
        · subst hia
          refine ⟨{ ea with loaded := false, inst := none }, ?_⟩
          show lookupEntry (updateEntry st.models id
            (fun e => { e with loaded := false, inst := none })) id =
            some { ea with loaded := false, inst := none }
          exact lookupEntry_updateEntry_self hea
        · refine ⟨e, ?_⟩
          show lookupEntry (updateEntry st.models a
            (fun e => { e with loaded := false, inst := none })) id = some e
          rw [lookupEntry_updateEntry_ne hia]
          exact h0
      obtain ⟨e1, h1⟩ := h1ex
      cases hstart : (freshServer (clearedState st a) e1).start env.startEnv with
      | mk ok srv =>
        cases ok with
        | true =>
          rw [load_shape_active_ok st env id a e ea e1 srv h0 ha hea hl h1
            hstart] at h
          injection h with h
          rw [← h]
          refine ⟨?_,
            invActive_loadedState (clearedState st a) id e1 srv hc.2.1 h1⟩
          show ((updateEntry (clearedState st a).models id
            (fun x => { x with loaded := true, inst := some srv })).map
              Prod.fst).Nodup
          rw [keys_updateEntry]
          exact hc.2.2
        | false =>
          rw [load_shape_active_fail st env id a e ea e1 h0 ha hea hl h1
            (by rw [hstart])] at h
          injection h with h
          rw [← h]
          refine ⟨hc.2.2, fun _ => hc.2.1, fun b hcontra => ?_⟩
          rw [hc.1] at hcontra
          exact Option.noConfusion hcontra

theorem wfS_step (st : TTSModelManager) (op : Op) (hw : WfS st) :
    WfS (step st op) := by
  cases op with
  | load id env =>
    cases h : st.load_model env id with
    | ok r =>
      have hr := wfS_load st env id hw r h
      simp only [step]
      rw [h]
      exact hr
    | error e =>
      simp only [step]
      rw [h]
      exact hw
  | unload id f =>
    cases h : st.unload_model f id with
    | ok r =>
      have hr := wfS_unload st f id hw r h
      simp only [step]
      rw [h]
      exact hr
    | error e =>
      simp only [step]
      rw [h]
      exact hw

theorem wfS_initial : WfS initialManager := by
  refine ⟨?_, ?_, ?_⟩
  · show (initialManager.models.map Prod.fst).Nodup
    decide
  · show initialManager.active_model = none →
      ∀ p ∈ initialManager.models, p.2.loaded = false
    intro _
    decide
  · intro a h
    exact Option.noConfusion h

theorem wfS_foldl : ∀ (ops : List Op) (st : TTSModelManager),
    WfS st → WfS (ops.foldl step st) := by
  intro ops
  induction ops with
  | nil => intro st h; exact h
  | cons op rest ih =>
    intro st h
    exact ih (step st op) (wfS_step st op h)

theorem wfS_run (ops : List Op) : WfS (run ops) :=
  wfS_foldl ops initialManager wfS_initial

theorem filter_keys_of_unique (a : String) :
    ∀ (ms : List (String × ModelEntry)),
    (ms.map Prod.fst).Nodup →
    (∃ p, p ∈ ms ∧ p.1 = a) →
    (∀ p ∈ ms, (p.2.loaded = true ↔ p.1 = a)) →
    (ms.filter (fun p => p.2.loaded)).map Prod.fst = [a] := by
  intro ms
  induction ms with
  | nil =>
    intro _ hex _
    rcases hex with ⟨p, hp, _⟩
    simp at hp
  | cons q rest ih =>
    intro hnd hex hiff
    rw [List.map_cons] at hnd
    have hnd1 := List.nodup_cons.mp hnd
    cases hq : q.2.loaded with
    | true =>
      have hqa : q.1 = a := (hiff q (List.mem_cons_self q rest)).mp hq
      have hrest0 : rest.filter (fun p => p.2.loaded) = [] := by
        rw [List.filter_eq_nil_iff]
        intro p hp hpl
        have hpa : p.1 = a :=
          (hiff p (List.mem_cons_of_mem q hp)).mp (by simpa using hpl)
        exact hnd1.1 (hqa ▸ hpa ▸ List.mem_map_of_mem Prod.fst hp)
      have hfc : List.filter (fun p : String × ModelEntry => p.2.loaded)
          (q :: rest) = q :: List.filter (fun p => p.2.loaded) rest :=
        List.filter_cons_of_pos hq
      rw [hfc, hrest0, List.map_cons, hqa]
      rfl
    | false =>
      have hqa : q.1 ≠ a := by
        intro hqa
        have := (hiff q (List.mem_cons_self q rest)).mpr hqa
        rw [hq] at this
        exact absurd this (by simp)
      have hfc : List.filter (fun p : String × ModelEntry => p.2.loaded)
          (q :: rest) = List.filter (fun p => p.2.loaded) rest :=
        List.filter_cons_of_neg (by simp [hq])
      rw [hfc]
      apply ih hnd1.2
      · rcases hex with ⟨p, hp, hpa⟩
        rcases List.mem_cons.mp hp with rfl | hmem
        · exact absurd hpa hqa
        · exact ⟨p, hmem, hpa⟩
      · intro p hp
        exact hiff p (List.mem_cons_of_mem q hp)

/-! ### Claim theorems -/

/-- C1: for every sequence of `load_model`/`unload_model` calls on a
`TTSModelManager` (any environments, starting from the freshly constructed
registry), at most one catalog entry has `loaded = true`, and `active_model`
is set if and only if exactly one entry is loaded — and then the loaded
entry is the one keyed by `active_model`. -/
theorem spec_C1 (ops : List Op) :
    (((run ops).models.filter (fun p => p.2.loaded)).length ≤ 1) ∧
    ((run ops).active_model = none ↔
      ((run ops).models.filter (fun p => p.2.loaded)).length = 0) ∧
    (∀ a, (run ops).active_model = some a →
      ((run ops).models.filter (fun p => p.2.loaded)).map Prod.fst = [a]) := by
  obtain ⟨hnd, hinv⟩ := wfS_run ops
  cases ha : (run ops).active_model with
  | none =>
    have hall := hinv.1 ha
    have h0 : (run ops).models.filter (fun p => p.2.loaded) = [] := by
      rw [List.filter_eq_nil_iff]
      intro p hp
      simp [hall p hp]
    refine ⟨by rw [h0]; simp, by rw [h0]; simp, ?_⟩
    intro a hcontra
    exact Option.noConfusion hcontra
  | some a =>
    obtain ⟨hex, hiff⟩ := hinv.2 a ha
    have hone := filter_keys_of_unique a (run ops).models hnd hex hiff
    have hlen : ((run ops).models.filter (fun p => p.2.loaded)).length = 1 := by
      have hlen' := congrArg List.length hone
      simpa using hlen'
    refine ⟨by omega, ?_, ?_⟩
    · constructor
      · intro h
        exact Option.noConfusion h
      · intro h
        exact absurd hlen (by rw [h]; decide)
    · intro b hb
      injection hb with hb
      rw [← hb]
      exact hone

theorem load_ok_true_facts (st : TTSModelManager) (env : LoadEnv) (id : String)
    (hw : WfS st) (st' : TTSModelManager) (evs : List Event)
    (h : st.load_model env id = .ok (true, st', evs)) :
    st'.active_model = some id ∧
    (∃ e', lookupEntry st'.models id = some e' ∧ e'.loaded = true ∧
      ∃ srv, e'.inst = some srv) ∧
    (∀ c, c ≠ id →
      lookupEntry st'.models c =
        (if st.active_model = some c then
          (lookupEntry st.models c).map
            (fun e => { e with loaded := false, inst := none })
        else lookupEntry st.models c)) ∧
    (∀ a ea sv, st.active_model = some a → lookupEntry st.models a = some ea →
      ea.inst = some sv →
      Event.stopCalled sv.model_name (sv.stop env.stopFails).1 ∈ evs) := by
  cases h0 : lookupEntry st.models id with
  | none =>
    rw [load_unknown st env id h0] at h
    exact Except.noConfusion h
  | some e =>
    cases ha : st.active_model with
    | none =>
      cases hstart : (freshServer st e).start env.startEnv with
      | mk ok srv =>
        cases ok with
        | false =>
          rw [load_shape_noactive_fail st env id e h0 ha (by rw [hstart])] at h
          injection h with h
          exact absurd (congrArg Prod.fst h) (by simp)
        | true =>
          rw [load_shape_noactive_ok st env id e srv h0 ha hstart] at h
          injection h with h
          have hst : loadedState st id srv = st' := congrArg (fun p => p.2.1) h
          refine ⟨?_, ?_, ?_, ?_⟩
          · rw [← hst]; rfl
          · rw [← hst]
            refine ⟨{ e with loaded := true, inst := some srv }, ?_, rfl,
              srv, rfl⟩
            show lookupEntry (updateEntry st.models id
              (fun x => { x with loaded := true, inst := some srv })) id = _
            exact lookupEntry_updateEntry_self h0
          · intro c hc
            rw [← hst]
            show lookupEntry (updateEntry st.models id
              (fun x => { x with loaded := true, inst := some srv })) c =
              if (none : Option String) = some c then
                (lookupEntry st.models c).map
                  (fun e => { e with loaded := false, inst := none })
              else lookupEntry st.models c
            rw [lookupEntry_updateEntry_ne hc, if_neg (by simp)]
          · intro a ea sv haa _ _
            exact Option.noConfusion haa
    | some a =>
      obtain ⟨ea, hea, hl⟩ := active_entry st a hw ha
      have h1ex : ∃ e1, lookupEntry (clearedState st a).models id = some e1 := by
        by_cases hia : id = a
        · subst hia
          refine ⟨{ ea with loaded := false, inst := none }, ?_⟩
          show lookupEntry (updateEntry st.models id
            (fun e => { e with loaded := false, inst := none })) id =
            some { ea with loaded := false, inst := none }
          exact lookupEntry_updateEntry_self hea
        · refine ⟨e, ?_⟩
          show lookupEntry (updateEntry st.models a
            (fun e => { e with loaded := false, inst := none })) id = some e
          rw [lookupEntry_updateEntry_ne hia]
          exact h0
      obtain ⟨e1, h1⟩ := h1ex
      cases hstart : (freshServer (clearedState st a) e1).start env.startEnv with
      | mk ok srv =>
        cases ok with
        | false =>
          rw [load_shape_active_fail st env id a e ea e1 h0 ha hea hl h1
            (by rw [hstart])] at h
          injection h with h
          exact absurd (congrArg Prod.fst h) (by simp)
        | true =>
          rw [load_shape_active_ok st env id a e ea e1 srv h0 ha hea hl h1
            hstart] at h
          injection h with h
          have hst : loadedState (clearedState st a) id srv = st' :=
            congrArg (fun p => p.2.1) h
          have hevs : stopEvents ea env.stopFails ++
              [Event.startCalled e1.model_name
                (freshServer (clearedState st a) e1).port true] = evs :=
            congrArg (fun p => p.2.2) h
          refine ⟨?_, ?_, ?_, ?_⟩
          · rw [← hst]; rfl
          · rw [← hst]
            refine ⟨{ e1 with loaded := true, inst := some srv }, ?_, rfl,
              srv, rfl⟩
            show lookupEntry (updateEntry (clearedState st a).models id
              (fun x => { x with loaded := true, inst := some srv })) id = _
            exact lookupEntry_updateEntry_self h1
          · intro c hc
            rw [← hst]
            show lookupEntry (updateEntry (clearedState st a).models id
              (fun x => { x with loaded := true, inst := some srv })) c =
              if some a = some c then
                (lookupEntry st.models c).map
                  (fun e => { e with loaded := false, inst := none })
              else lookupEntry st.models c
            rw [lookupEntry_updateEntry_ne hc]
            by_cases hca : c = a
            · subst hca
              show lookupEntry (updateEntry st.models c
                (fun x => { x with loaded := false, inst := none })) c = _
              rw [lookupEntry_updateEntry_self hea, if_pos rfl, hea]
              rfl
            · have hne : ¬(some a = some c) := by
                intro hEq
                injection hEq with hEq
                exact hca hEq.symm
              show lookupEntry (updateEntry st.models a
                (fun x => { x with loaded := false, inst := none })) c = _
              rw [lookupEntry_updateEntry_ne hca, if_neg hne]
          · intro a' ea' sv ha' hea' hi'
            injection ha' with ha'
            subst ha'
            rw [hea] at hea'
            injection hea' with hea'
            subst hea'
            rw [← hevs]
            simp [stopEvents, hi']

/-- C2: from any well-formed registry state, a successful `load_model A`
followed by a successful `load_model B` with `A ≠ B` leaves `A` unloaded
with its handle stopped (a stop event occurs during the second load) and
cleared (`inst = none`), `B` loaded, and `active_model = B`. -/
theorem spec_C2 (st : TTSModelManager) (envA envB : LoadEnv) (A B : String)
    (st1 st2 : TTSModelManager) (evsA evsB : List Event)
    (hw : WfS st) (hAB : A ≠ B)
    (hA : st.load_model envA A = .ok (true, st1, evsA))
    (hB : st1.load_model envB B = .ok (true, st2, evsB)) :
    (∃ eA, lookupEntry st2.models A = some eA ∧ eA.loaded = false ∧
      eA.inst = none) ∧
    (∃ eB, lookupEntry st2.models B = some eB ∧ eB.loaded = true) ∧
    st2.active_model = some B ∧
    (∃ nm rs, Event.stopCalled nm rs ∈ evsB) := by
  have hw1 : WfS st1 := wfS_load st envA A hw (true, st1, evsA) hA
  obtain ⟨hact1, ⟨eA1, heA1, hlA1, srvA, hiA1⟩, _, _⟩ :=
    load_ok_true_facts st envA A hw st1 evsA hA
  obtain ⟨hact2, ⟨eB2, heB2, hlB2, _⟩, hrest2, hstop2⟩ :=
    load_ok_true_facts st1 envB B hw1 st2 evsB hB
  refine ⟨?_, ⟨eB2, heB2, hlB2⟩, hact2, ?_⟩
  · have hlook := hrest2 A hAB
    rw [hact1, if_pos rfl, heA1] at hlook
    exact ⟨{ eA1 with loaded := false, inst := none }, hlook, rfl, rfl⟩
  · exact ⟨srvA.model_name, (srvA.stop envB.stopFails).1,
      hstop2 A eA1 srvA hact1 heA1 hiA1⟩

/-- Witness for C2 at concrete inputs: loading `"xtts_v2"` and then
`"greek_vits"` from the fresh registry with healthy backends. -/
theorem spec_C2_witness :
    (∃ eA, lookupEntry wSt2.models "xtts_v2" = some eA ∧ eA.loaded = false ∧
      eA.inst = none) ∧
    (∃ eB, lookupEntry wSt2.models "greek_vits" = some eB ∧
      eB.loaded = true) ∧
    wSt2.active_model = some "greek_vits" ∧
    (∃ nm rs, Event.stopCalled nm rs ∈ wEvsB) :=
  spec_C2 initialManager okLoadEnv okLoadEnv "xtts_v2" "greek_vits"
    wSt1 wSt2 wEvsA wEvsB wfS_initial (by decide) rfl rfl

/-- C3 (amended): if the backend never becomes healthy within the polling
budget, `load_model id` returns `false` and the catalog entry for `id` ends
up (or stays) `loaded = false`; `active_model` is unchanged when no model
was active before the call.  (When a model was active, the code has already
unloaded it before the failed start, so `active_model` is `none` — see the
counterexample.) -/
theorem spec_C3 (st : TTSModelManager) (env : LoadEnv) (id : String)
    (e : ModelEntry) (hw : WfS st)
    (hid : lookupEntry st.models id = some e)
    (hpoll : ∀ i s, env.startEnv.poll i = .ok s → s ≠ 200) :
    ∃ st1 evs, st.load_model env id = .ok (false, st1, evs) ∧
      (∃ e', lookupEntry st1.models id = some e' ∧ e'.loaded = false) ∧
      (st.active_model = none → st1.active_model = st.active_model) := by
  have hsf : ∀ h' : TTSServer, (h'.start env.startEnv).1 = false :=
    fun h' => start_false_of h' env.startEnv
      (fun i _ s hs => hpoll i s hs)
  cases ha : st.active_model with
  | none =>
    refine ⟨st, _, load_shape_noactive_fail st env id e hid ha (hsf _), ?_, ?_⟩
    · have hall := hw.2.1 ha
      exact ⟨e, hid, hall (id, e) (lookupEntry_mem hid)⟩
    · intro _
      exact ha
  | some a =>
    obtain ⟨ea, hea, hl⟩ := active_entry st a hw ha
    have hc := invActive_clearedState st a hw ha
    have h1ex : ∃ e1, lookupEntry (clearedState st a).models id = some e1 := by
      by_cases hia : id = a
      · subst hia
        refine ⟨{ ea with loaded := false, inst := none }, ?_⟩
        show lookupEntry (updateEntry st.models id
          (fun e => { e with loaded := false, inst := none })) id =
          some { ea with loaded := false, inst := none }
        exact lookupEntry_updateEntry_self hea
      · refine ⟨e, ?_⟩
        show lookupEntry (updateEntry st.models a
          (fun e => { e with loaded := false, inst := none })) id = some e
        rw [lookupEntry_updateEntry_ne hia]
        exact hid
    obtain ⟨e1, h1⟩ := h1ex
    refine ⟨clearedState st a, _,
      load_shape_active_fail st env id a e ea e1 hid ha hea hl h1 (hsf _),
      ?_, ?_⟩
    · exact ⟨e1, h1, hc.2.1 (id, e1) (lookupEntry_mem h1)⟩
    · intro hcontra
      exact Option.noConfusion hcontra

/-- Witness for C3 at concrete inputs: loading `"bark"` from the fresh
registry with a backend that never answers a health poll. -/
theorem spec_C3_witness :
    ∃ st1 evs, initialManager.load_model deadLoadEnv "bark" =
      .ok (false, st1, evs) ∧
      (∃ e', lookupEntry st1.models "bark" = some e' ∧ e'.loaded = false) ∧
      (initialManager.active_model = none →
        st1.active_model = initialManager.active_model) :=
  spec_C3 initialManager deadLoadEnv "bark"
    { name := "Bark"
      model_name := "tts_models/multilingual/multi-dataset/bark"
      loaded := false
      inst := none }
    wfS_initial (by decide) (fun i s h => PollOutcome.noConfusion h)

/-- Counterexample to C3 as stated: when a model is active, a failed load of
another model does NOT leave `active_model` unchanged — the active model is
unloaded first, so `active_model` drops from `some "xtts_v2"` to `none`. -/
theorem spec_C3_counterexample :
    wSt1.active_model = some "xtts_v2" ∧
    wSt1.load_model deadLoadEnv "bark" = .ok (false, cSt3, cEvs3) ∧
    cSt3.active_model = none ∧
    cSt3.active_model ≠ wSt1.active_model :=
  ⟨rfl, rfl, rfl, by decide⟩

/-- C4 (amended): for every identifier `x` not in the catalog, `load_model`
and `unload_model` raise `UnknownModel`, and `synthesize` with explicit
model id `x` raises `UnknownModel` provided `x` is non-empty — the Python
`model_id = model_id or self.active_model` treats the empty string as
absent, falling back to the active model (see the counterexample). -/
theorem spec_C4 (st : TTSModelManager) (x : String) (env : LoadEnv)
    (f : Bool) (senv : Nat → SynthOutcome) (text : String)
    (sp lg : Option String)
    (hx : lookupEntry st.models x = none) :
    st.load_model env x = .error (.unknownModel x) ∧
    st.unload_model f x = .error (.unknownModel x) ∧
    (x ≠ "" →
      st.synthesize senv text (some x) sp lg = .error (.unknownModel x)) := by
  refine ⟨load_unknown st env x hx, unload_unknown st f x hx, ?_⟩
  intro hne
  unfold TTSModelManager.synthesize
  simp [hne, hx]

/-- Witness for C4 at concrete inputs: the identifier `"nope"` is not in the
catalog and all three operations raise `UnknownModel` on it. -/
theorem spec_C4_witness :
    initialManager.load_model okLoadEnv "nope" =
      .error (.unknownModel "nope") ∧
    initialManager.unload_model false "nope" =
      .error (.unknownModel "nope") ∧
    ("nope" ≠ "" →
      initialManager.synthesize (fun _ => .otherExc) "hi" (some "nope")
        none none = .error (.unknownModel "nope")) :=
  spec_C4 initialManager "nope" okLoadEnv false (fun _ => .otherExc) "hi"
    none none (by decide)

/-- Counterexample to C4 as stated: the empty string is an identifier not in
the catalog, yet `synthesize` with `model_id = ""` does not raise
`UnknownModel` — the falsy string falls through to the active model, and
with nothing loaded the call raises `NoActiveModel` instead. -/
theorem spec_C4_counterexample :
    lookupEntry initialManager.models "" = none ∧
    initialManager.synthesize (fun _ => .otherExc) "hi" (some "") none none =
      .error .noActiveModel ∧
    initialManager.synthesize (fun _ => .otherExc) "hi" (some "") none none ≠
      .error (.unknownModel "") :=
  ⟨rfl, rfl, fun h => TTSError.noConfusion (Except.error.inj h)⟩

/-- C5: `TTSServer.synthesize` makes at most `maxRetries = 3` attempts with
a fixed `synthTimeout = 30`-second per-attempt timeout and a
`retryDelay = 1`-second pause between retries; a 200 response returns the
raw payload immediately; any other non-503 status ends the call at once
with no result; a 503, a timeout, or a connection error causes a retry; and
in the scenario where the backend answers 503 twice and then 200 with body
`"RIFF..."`, the loop returns `"RIFF..."` on the third attempt, i.e. after
exactly 2 retries. -/
theorem spec_C5 :
    maxRetries = 3 ∧ synthTimeout = 30 ∧ retryDelay = 1 ∧
    (∀ (h : TTSServer) (env : Nat → SynthOutcome) (text : String)
      (sp lg : Option String),
      (h.synthesize env text sp lg).2 = (synthLoopCount env 0 maxRetries).1) ∧
    (∀ (env : Nat → SynthOutcome) (body : String), env 0 = .ok 200 body →
      synthLoopCount env 0 maxRetries = (some body, 1)) ∧
    (∀ (env : Nat → SynthOutcome) (s : Nat) (b : String),
      env 0 = .ok s b → s ≠ 200 → s ≠ 503 →
      synthLoopCount env 0 maxRetries = (none, 1)) ∧
    (∀ env : Nat → SynthOutcome,
      (env 0 = .timeout ∨ env 0 = .connError ∨ (∃ b, env 0 = .ok 503 b)) →
      synthLoopCount env 0 maxRetries =
        ((synthLoopCount env 1 (maxRetries - 1)).1,
          (synthLoopCount env 1 (maxRetries - 1)).2 + 1)) ∧
    (∀ env : Nat → SynthOutcome,
      (synthLoopCount env 0 maxRetries).2 ≤ maxRetries) ∧
    synthLoopCount scen503 0 maxRetries = (some "RIFF...", 3) := by
  refine ⟨rfl, rfl, rfl, ?_, ?_, ?_, ?_,
    fun env => synthLoopCount_le maxRetries 0 env, by decide⟩
  · intro h env text sp lg
    rfl
  · intro env body h
    show synthLoopCount env 0 3 = (some body, 1)
    rw [synthLoopCount, h]
    simp
  · intro env s b h hs200 hs503
    show synthLoopCount env 0 3 = (none, 1)
    rw [synthLoopCount, h]
    simp [hs200, hs503]
  · intro env hcase
    show synthLoopCount env 0 3 =
      ((synthLoopCount env 1 2).1, (synthLoopCount env 1 2).2 + 1)
    rcases hcase with h | h | ⟨b, h⟩
    · rw [synthLoopCount, h]
    · rw [synthLoopCount, h]
    · rw [synthLoopCount, h]
      simp

/-- Witness for C5 at concrete environments: an immediate 200 returns in one
attempt, a 404 fails in one attempt with no result, and the 503 scenario
takes the retry branch on its first attempt. -/
theorem spec_C5_witness :
    synthLoopCount (fun _ => .ok 200 "wav") 0 maxRetries = (some "wav", 1) ∧
    synthLoopCount (fun _ => .ok 404 "err") 0 maxRetries = (none, 1) ∧
    synthLoopCount scen503 0 maxRetries =
      ((synthLoopCount scen503 1 (maxRetries - 1)).1,
        (synthLoopCount scen503 1 (maxRetries - 1)).2 + 1) := by
  have h := spec_C5
  exact ⟨h.2.2.2.2.1 (fun _ => .ok 200 "wav") "wav" rfl,
    h.2.2.2.2.2.1 (fun _ => .ok 404 "err") 404 "err" rfl (by decide)
      (by decide),
    h.2.2.2.2.2.2.1 scen503
      (Or.inr (Or.inr ⟨"service unavailable", by decide⟩))⟩

/-- C6 (amended): when capability discovery fails during a successful start
(the root-page fetch raises), `start` still returns `true` — the failure is
non-fatal — but the capability sets are left as they were (empty for a fresh
handle); they do NOT fall back to `["default"]`/`["en"]`.  The
single-element defaults apply only when the root page is fetched with
status 200 and no speaker/language options are scraped. -/
theorem spec_C6 (h : TTSServer) (env : StartEnv)
    (hs : env.spawnFails = false)
    (hp : ∃ i, i < startMaxAttempts ∧ env.poll i = .ok 200)
    (hsp : h.speakers = []) (hlg : h.languages = []) :
    (h.start env).1 = true ∧
    (env.fetch = .exc →
      (h.start env).2.speakers = [] ∧ (h.start env).2.languages = []) ∧
    (env.fetch = .ok 200 none none →
      (h.start env).2.speakers = ["default"] ∧
      (h.start env).2.languages = ["en"]) := by
  have hrun := start_true_of h env hs hp
  refine ⟨by rw [hrun], ?_, ?_⟩
  · intro hf
    rw [hrun, hf]
    exact ⟨hsp, hlg⟩
  · intro hf
    rw [hrun, hf]
    simp [TTSServer.fetch_model_info, hsp, hlg]

/-- Witness for C6 at concrete inputs: a fresh handle started against a
backend that is healthy on the first poll but whose capability fetch
raises. -/
theorem spec_C6_witness :
    (freshW.start okStartEnv).1 = true ∧
    (okStartEnv.fetch = .exc →
      (freshW.start okStartEnv).2.speakers = [] ∧
      (freshW.start okStartEnv).2.languages = []) ∧
    (okStartEnv.fetch = .ok 200 none none →
      (freshW.start okStartEnv).2.speakers = ["default"] ∧
      (freshW.start okStartEnv).2.languages = ["en"]) :=
  spec_C6 freshW okStartEnv rfl ⟨0, by decide, rfl⟩ rfl rfl

/-- Counterexample to C6 as stated: on discovery failure the capability sets
do NOT fall back to the single-element defaults — they stay empty — even
though `start` does return `true`. -/
theorem spec_C6_counterexample :
    (freshW.start okStartEnv).1 = true ∧
    (freshW.start okStartEnv).2.speakers = [] ∧
    (freshW.start okStartEnv).2.speakers ≠ ["default"] ∧
    (freshW.start okStartEnv).2.languages = [] ∧
    (freshW.start okStartEnv).2.languages ≠ ["en"] :=
  ⟨rfl, rfl, by decide, rfl, by decide⟩

/-- C7: the request built by `TTSServer.synthesize` always carries the text
and an empty `style_wav`; it carries `speaker_id` (resp. `language_id`)
exactly when that argument is present and a member of the handle's
discovered capability list (an unsupported value is silently dropped, and
the retry loop runs regardless).  The hypotheses record that discovered
capability values are never the empty string (the scraping regex `[^"]+`
and both fallback defaults only produce non-empty strings). -/
theorem spec_C7 (h : TTSServer) (env : Nat → SynthOutcome) (text : String)
    (sp lg : Option String)
    (hsp : "" ∉ h.speakers) (hlg : "" ∉ h.languages) :
    ((h.synthesize env text sp lg).1.text = text) ∧
    ((h.synthesize env text sp lg).1.style_wav = "") ∧
    (∀ s, (h.synthesize env text sp lg).1.speaker_id = some s ↔
      (sp = some s ∧ s ∈ h.speakers)) ∧
    (∀ s, (h.synthesize env text sp lg).1.language_id = some s ↔
      (lg = some s ∧ s ∈ h.languages)) ∧
    (h.synthesize env text sp lg).2 = (synthLoopCount env 0 maxRetries).1 := by
  refine ⟨rfl, rfl, ?_, ?_, rfl⟩
  · intro s
    cases sp with
    | none =>
      show (none : Option String) = some s ↔ (none : Option String) = some s ∧
        s ∈ h.speakers
      constructor
      · intro hEq; exact Option.noConfusion hEq
      · rintro ⟨hEq, _⟩; exact Option.noConfusion hEq
    | some s' =>
      show (if s' ≠ "" ∧ s' ∈ h.speakers then some s' else none) = some s ↔
        some s' = some s ∧ s ∈ h.speakers
      by_cases hcond : s' ≠ "" ∧ s' ∈ h.speakers
      · rw [if_pos hcond]
        constructor
        · intro hEq
          injection hEq with hEq
          subst hEq
          exact ⟨rfl, hcond.2⟩
        · rintro ⟨hEq, _⟩
          injection hEq with hEq
          subst hEq
          rfl
      · rw [if_neg hcond]
        constructor
        · intro hEq
          exact Option.noConfusion hEq
        · rintro ⟨hEq, hmem⟩
          injection hEq with hEq
          subst hEq
          exact absurd ⟨fun hemp => hsp (hemp ▸ hmem), hmem⟩ hcond
  · intro s
    cases lg with
    | none =>
      show (none : Option String) = some s ↔ (none : Option String) = some s ∧
        s ∈ h.languages
      constructor
      · intro hEq; exact Option.noConfusion hEq
      · rintro ⟨hEq, _⟩; exact Option.noConfusion hEq
    | some s' =>
      show (if s' ≠ "" ∧ s' ∈ h.languages then some s' else none) = some s ↔
        some s' = some s ∧ s ∈ h.languages
      by_cases hcond : s' ≠ "" ∧ s' ∈ h.languages
      · rw [if_pos hcond]
        constructor
        · intro hEq
          injection hEq with hEq
          subst hEq
          exact ⟨rfl, hcond.2⟩
        · rintro ⟨hEq, _⟩
          injection hEq with hEq
          subst hEq
          rfl
      · rw [if_neg hcond]
        constructor
        · intro hEq
          exact Option.noConfusion hEq
        · rintro ⟨hEq, hmem⟩
          injection hEq with hEq
          subst hEq
          exact absurd ⟨fun hemp => hlg (hemp ▸ hmem), hmem⟩ hcond

/-- Witness for C7 at concrete inputs: a handle with discovered speakers
`["p225", "p226"]` and languages `["en", "fr"]`, called with an unsupported
speaker `"bob"` and the supported language `"en"`. -/
theorem spec_C7_witness :
    ((wSrv7.synthesize (fun _ => .otherExc) "hi" (some "bob")
      (some "en")).1.text = "hi") ∧
    ((wSrv7.synthesize (fun _ => .otherExc) "hi" (some "bob")
      (some "en")).1.style_wav = "") ∧
    (∀ s, (wSrv7.synthesize (fun _ => .otherExc) "hi" (some "bob")
      (some "en")).1.speaker_id = some s ↔
      ((some "bob" : Option String) = some s ∧ s ∈ wSrv7.speakers)) ∧
    (∀ s, (wSrv7.synthesize (fun _ => .otherExc) "hi" (some "bob")
      (some "en")).1.language_id = some s ↔
      ((some "en" : Option String) = some s ∧ s ∈ wSrv7.languages)) ∧
    (wSrv7.synthesize (fun _ => .otherExc) "hi" (some "bob")
      (some "en")).2 =
      (synthLoopCount (fun _ => .otherExc) 0 maxRetries).1 :=
  spec_C7 wSrv7 (fun _ => .otherExc) "hi" (some "bob") (some "en")
    (by decide) (by decide)

/-- C8 (amended): `TTSServer.start` polls the backend's root endpoint at the
fixed `pollInterval = 1`-second interval for up to `startMaxAttempts = 120`
attempts and returns `false` whenever no attempt in the budget answers with
HTTP 200 — and in that case the full budget of 120 poll attempts is always
consumed: the loop does not observe the spawned process, so it does NOT stop
early when the process exits on its own (see the counterexample). -/
theorem spec_C8 (h : TTSServer) (env : StartEnv)
    (hp : ∀ i, i < startMaxAttempts → ∀ s, env.poll i = .ok s → s ≠ 200) :
    startMaxAttempts = 120 ∧ pollInterval = 1 ∧
    (h.start env).1 = false ∧
    startAttemptsUsed env.poll 0 startMaxAttempts = startMaxAttempts := by
  refine ⟨rfl, rfl, start_false_of h env hp, ?_⟩
  exact startAttemptsUsed_full startMaxAttempts 0 env.poll
    (fun i hi s hs => hp i hi s (by simpa using hs))

/-- Witness for C8 at concrete inputs: a fresh handle started against a
backend whose every poll raises a connection error. -/
theorem spec_C8_witness :
    startMaxAttempts = 120 ∧ pollInterval = 1 ∧
    (freshW.start deadStartEnv).1 = false ∧
    startAttemptsUsed deadStartEnv.poll 0 startMaxAttempts =
      startMaxAttempts :=
  spec_C8 freshW deadStartEnv (fun _ _ _ hs => PollOutcome.noConfusion hs)

/-- Counterexample to C8 as stated: in `deadStartEnv` the spawned process
has exited before the very first poll, yet the loop still issues all 120
poll attempts — it does not stop early on process exit. -/
theorem spec_C8_counterexample :
    deadStartEnv.processExitedAt = some 0 ∧
    startAttemptsUsed deadStartEnv.poll 0 startMaxAttempts = 120 ∧
    ¬ startAttemptsUsed deadStartEnv.poll 0 startMaxAttempts ≤ 1 ∧
    (freshW.start deadStartEnv).1 = false :=
  ⟨rfl, by decide, by decide, rfl⟩

/-- C9 (amended): when `unload_model id` stops a loaded entry, the boolean
result of `TTSServer.stop` is discarded: whatever the stop outcome (the
event trace records it), `unload_model` clears the entry and reports
success (`true`) — a stop failure is NOT surfaced as a failure result. -/
theorem spec_C9 (st : TTSModelManager) (f : Bool) (id : String)
    (e : ModelEntry) (he : lookupEntry st.models id = some e)
    (hl : e.loaded = true) :
    st.unload_model f id = .ok (true, clearedState st id, stopEvents e f) ∧
    (∀ e', lookupEntry (clearedState st id).models id = some e' →
      e'.loaded = false ∧ e'.inst = none) := by
  refine ⟨unload_shape st f id e he hl, ?_⟩
  intro e' he'
  have hself : lookupEntry (updateEntry st.models id
      (fun x => { x with loaded := false, inst := none })) id =
      some { e with loaded := false, inst := none } :=
    lookupEntry_updateEntry_self he
  have he'' : lookupEntry (updateEntry st.models id
      (fun x => { x with loaded := false, inst := none })) id = some e' := he'
  rw [hself] at he''
  injection he'' with he''
  rw [← he'']
  exact ⟨rfl, rfl⟩

/-- Witness for C9 at concrete inputs: unloading the loaded `"xtts_v2"`
from `wSt1` with a failing stop. -/
theorem spec_C9_witness :
    wSt1.unload_model true "xtts_v2" =
      .ok (true, clearedState wSt1 "xtts_v2", stopEvents c10entry true) ∧
    (∀ e', lookupEntry (clearedState wSt1 "xtts_v2").models "xtts_v2" =
      some e' → e'.loaded = false ∧ e'.inst = none) :=
  spec_C9 wSt1 true "xtts_v2" c10entry (by decide) (by decide)

/-- Counterexample to C9 as stated: stopping the backend process fails (the
event trace records `stop` returning `false`), yet `unload_model` reports
success (`true`), not failure — so the HTTP layer reports success too. -/
theorem spec_C9_counterexample :
    wSt1.unload_model true "xtts_v2" = .ok (true, cSt9, cEvs9) ∧
    cEvs9 = [Event.stopCalled
      "tts_models/multilingual/multi-dataset/xtts_v2" false] :=
  ⟨rfl, rfl⟩

/-- C10: re-loading the currently active model `id` is not a no-op: the held
backend is stopped first (the event trace is exactly a stop of the old
handle followed by a successful start on `base_port`), and the entry ends up
loaded with the handle produced by starting a brand-new `TTSServer` (fresh
process, empty capability lists) — the backend is restarted. -/
theorem spec_C10 (st : TTSModelManager) (env : LoadEnv) (id : String)
    (e : ModelEntry) (srvOld : TTSServer)
    (st' : TTSModelManager) (evs : List Event)
    (hw : WfS st)
    (ha : st.active_model = some id)
    (he : lookupEntry st.models id = some e)
    (hi : e.inst = some srvOld)
    (h : st.load_model env id = .ok (true, st', evs)) :
    evs = [Event.stopCalled srvOld.model_name (srvOld.stop env.stopFails).1,
      Event.startCalled e.model_name st.base_port true] ∧
    (∃ e', lookupEntry st'.models id = some e' ∧ e'.loaded = true ∧
      e'.inst = some ((freshServer (clearedState st id)
        { e with loaded := false, inst := none }).start env.startEnv).2) ∧
    st'.active_model = some id := by
  obtain ⟨ea, hea, hlea⟩ := active_entry st id hw ha
  have hl : e.loaded = true := by
    rw [he] at hea
    injection hea with hq
    rw [hq]
    exact hlea
  have h1 : lookupEntry (clearedState st id).models id =
      some { e with loaded := false, inst := none } := by
    show lookupEntry (updateEntry st.models id
      (fun x => { x with loaded := false, inst := none })) id = _
    exact lookupEntry_updateEntry_self he
  have hport : (freshServer (clearedState st id)
      { e with loaded := false, inst := none }).port = st.base_port := by
    show nextPort (clearedState st id) = st.base_port
    unfold nextPort
    have hall := (invActive_clearedState st id hw ha).2.1
    have hnil : (clearedState st id).models.filter (fun p => p.2.loaded) =
        [] := by
      rw [List.filter_eq_nil_iff]
      intro p hp
      simp [hall p hp]
    rw [hnil]
    simp [clearedState]
  cases hstart : (freshServer (clearedState st id)
      { e with loaded := false, inst := none }).start env.startEnv with
  | mk ok srv =>
    cases ok with
    | false =>
      rw [load_shape_active_fail st env id id e e
        { e with loaded := false, inst := none } he ha he hl h1
        (by rw [hstart])] at h
      injection h with h
      exact absurd (congrArg Prod.fst h) (by simp)
    | true =>
      rw [load_shape_active_ok st env id id e e
        { e with loaded := false, inst := none } srv he ha he hl h1
        hstart] at h
      injection h with h
      have hst : loadedState (clearedState st id) id srv = st' :=
        congrArg (fun p => p.2.1) h
      have hevs : stopEvents e env.stopFails ++
          [Event.startCalled
            ({ e with loaded := false, inst := none } : ModelEntry).model_name
            (freshServer (clearedState st id)
              { e with loaded := false, inst := none }).port true] = evs :=
        congrArg (fun p => p.2.2) h
      refine ⟨?_, ?_, ?_⟩
      · rw [← hevs, hport]
        simp [stopEvents, hi]
      · rw [← hst]
        refine ⟨{ e with loaded := true, inst := some srv }, ?_, rfl, ?_⟩
        · exact @lookupEntry_updateEntry_self (clearedState st id).models id
            { e with loaded := false, inst := none }
            (fun x => { x with loaded := true, inst := some srv }) h1
        · rfl
      · rw [← hst]
        rfl

theorem wfS_wSt1 : WfS wSt1 :=
  wfS_load initialManager okLoadEnv "xtts_v2" wfS_initial
    (true, wSt1, wEvsA) rfl

/-- Witness for C10 at concrete inputs: re-loading the active `"xtts_v2"`
from `wSt1` with a healthy backend stops the old handle and starts a fresh
one on the base port. -/
theorem spec_C10_witness :
    wEvs10 = [Event.stopCalled c10srv.model_name
        (c10srv.stop okLoadEnv.stopFails).1,
      Event.startCalled c10entry.model_name wSt1.base_port true] ∧
    (∃ e', lookupEntry wSt10.models "xtts_v2" = some e' ∧ e'.loaded = true ∧
      e'.inst = some ((freshServer (clearedState wSt1 "xtts_v2")
        { c10entry with loaded := false, inst := none }).start
          okLoadEnv.startEnv).2) ∧
    wSt10.active_model = some "xtts_v2" :=
  spec_C10 wSt1 okLoadEnv "xtts_v2" c10entry c10srv wSt10 wEvs10
    wfS_wSt1 (by decide) (by decide) (by decide) rfl
